import Mathlib

/-!
# WebView component of the desktop app

A shallow embedding of `desktop-app/app/components/WebView/index.js`:

* the host-side event mirror (`processScrollEvent`, `processClickEvent`, driven by the
  pub/sub bus),
* the listeners that `initEventTriggers` injects into the page of a surface,
* the screenshot pipeline (`_takeFullPageSnapshot`, `_takeVisibleSectionSnapshot`,
  `_getScreenshotFileName`, `_writeScreenshotFile`).

Numbers are integers, strings are lists of characters, and every effect (a message sent over
IPC, a scroll command, a page capture, a file written) is recorded in the state that the
embedded functions pass along.
-/

namespace WebView

/-! ## Data model -/

/-- The fields of `props.device` that the component logic reads. -/
structure Device where
  id : Nat
  name : List Char
deriving DecidableEq, Repr

/-- The `position` payload of a scroll message: `{x, y}`. -/
structure Position where
  x : Int
  y : Int
deriving DecidableEq, Repr

/-- Scroll message built by the in-page scroll listener: `{sourceDeviceId, position}`. -/
structure ScrollMessage where
  sourceDeviceId : Nat
  position : Position
deriving DecidableEq, Repr

/-- Click message built by the in-page click listener: `{sourceDeviceId, cssPath}`. -/
structure ClickMessage where
  sourceDeviceId : Nat
  cssPath : List Char
deriving DecidableEq, Repr

/-- One call `webviewRef.current.send(channel, payload)`: the channel with its payload. -/
inductive IpcSend where
  | scrollMessage (position : Position)
  | clickMessage (message : ClickMessage)
deriving DecidableEq, Repr

/-- A mounted WebView component: its device and the messages sent so far to its webview
(oldest first). -/
structure Surface where
  device : Device
  sent : List IpcSend
deriving DecidableEq, Repr

/-! ## Host side: the event mirror -/

/-- Subscriber of the `scroll` topic (index.js, `processScrollEvent`). -/
def processScrollEvent (s : Surface) (message : ScrollMessage) : Surface :=
  if message.sourceDeviceId = s.device.id then s
  else { s with sent := s.sent ++ [IpcSend.scrollMessage message.position] }

/-- Subscriber of the `click` topic (index.js, `processClickEvent`). -/
def processClickEvent (s : Surface) (message : ClickMessage) : Surface :=
  if message.sourceDeviceId = s.device.id then s
  else { s with sent := s.sent ++ [IpcSend.clickMessage message] }

/-- The bus call `pubsub.publish('scroll', [message])`: every mounted surface subscribed its
`processScrollEvent` in `componentDidMount`, and each subscriber is called once. -/
def publishScroll (surfaces : List Surface) (message : ScrollMessage) : List Surface :=
  surfaces.map (fun s => processScrollEvent s message)

/-- The bus call `pubsub.publish('click', [message])`. -/
def publishClick (surfaces : List Surface) (message : ClickMessage) : List Surface :=
  surfaces.map (fun s => processClickEvent s message)

/-! ## Page side: the listeners injected by `initEventTriggers` -/

/-- A DOM element of the page, by identity. -/
abbrev Element := Nat

/-- The page global `window.responsivelyApp`, restricted to the properties the injected
script touches. `mouseOn = none` is a property that was never assigned (`undefined`);
`lastClickElement = none` is `null` or `undefined`. -/
structure ResponsivelyApp where
  deviceId : Nat
  mouseOn : Option Bool
  lastClickElement : Option Element
deriving DecidableEq, Repr

/-- One call `sendMessageToHost(channel, payload)`. -/
inductive HostMessage where
  | scroll (message : ScrollMessage)
  | click (message : ClickMessage)
deriving DecidableEq, Repr

/-- The first statement of the injected script: `responsivelyApp.deviceId = <device.id>`. -/
def initEventTriggers (device : Device) (app : ResponsivelyApp) : ResponsivelyApp :=
  { app with deviceId := device.id }

/-- Listener of `mouseleave` on the body. -/
def mouseleaveListener (app : ResponsivelyApp) : ResponsivelyApp :=
  { app with mouseOn := some false }

/-- Listener of `mouseenter` on the body. -/
def mouseenterListener (app : ResponsivelyApp) : ResponsivelyApp :=
  { app with mouseOn := some true }

/-- JavaScript truthiness of the `mouseOn` property. -/
def truthy : Option Bool → Bool
  | some b => b
  | none => false

/-- Listener of `scroll` on the window; `scrollX`, `scrollY` are the window's current
offsets. Returns the messages sent to the host. -/
def scrollListener (app : ResponsivelyApp) (scrollX scrollY : Int) : List HostMessage :=
  if !truthy app.mouseOn then []
  else [HostMessage.scroll
    { sourceDeviceId := app.deviceId, position := { x := scrollX, y := scrollY } }]

/-- A click event as the listener sees it. -/
structure ClickEvent where
  target : Element
  responsivelyAppProcessed : Bool
deriving DecidableEq, Repr

/-- Capturing listener of `click` on the document. `cssPath` is the page helper
`responsivelyApp.cssPath`. Returns the new page state, the event as the listener leaves it and
the messages sent to the host. -/
def clickListener (cssPath : Element → List Char) (app : ResponsivelyApp) (e : ClickEvent) :
    ResponsivelyApp × ClickEvent × List HostMessage :=
  if some e.target = app.lastClickElement || e.responsivelyAppProcessed then
    ({ app with lastClickElement := none }, { e with responsivelyAppProcessed := true }, [])
  else
    (app, { e with responsivelyAppProcessed := true },
      [HostMessage.click { sourceDeviceId := app.deviceId, cssPath := cssPath e.target }])

/-- Events the page of a surface can receive from the pointer and the scroller. -/
inductive PageEvent where
  | mouseenter
  | mouseleave
  | scroll (scrollX scrollY : Int)
deriving DecidableEq, Repr

/-- Dispatch of one page event to the injected listeners. -/
def pageStep (app : ResponsivelyApp) : PageEvent → ResponsivelyApp × List HostMessage
  | PageEvent.mouseenter => (mouseenterListener app, [])
  | PageEvent.mouseleave => (mouseleaveListener app, [])
  | PageEvent.scroll x y => (app, scrollListener app x y)

/-- Page state after a history of page events. -/
def pageRun (app : ResponsivelyApp) (history : List PageEvent) : ResponsivelyApp :=
  history.foldl (fun a ev => (pageStep a ev).1) app

/-- The events that move the pointer onto or off the page. -/
def isPointerEvent : PageEvent → Bool
  | PageEvent.mouseenter => true
  | PageEvent.mouseleave => true
  | PageEvent.scroll _ _ => false

/-- The pointer-engaged flag as a history (oldest event first) determines it: the most recent
of the `mouseenter` / `mouseleave` events is a `mouseenter`; unset before any of them. -/
def pointerEngaged : List PageEvent → Bool
  | [] => false
  | ev :: rest =>
    if rest.any isPointerEvent then pointerEngaged rest else decide (ev = PageEvent.mouseenter)

/-- Modelled from the spec: the click replay of the page (preload script, not among the
sources), as the specification words it: a replay sets `lastClickElement` to the element and
then dispatches one click on it, which reaches the injected listener; `flagged` is the
`responsivelyAppProcessed` mark the dispatched event carries. -/
def replayClick (cssPath : Element → List Char) (app : ResponsivelyApp) (el : Element)
    (flagged : Bool) : ResponsivelyApp × List HostMessage :=
  let r := clickListener cssPath { app with lastClickElement := some el }
    { target := el, responsivelyAppProcessed := flagged }
  (r.1, r.2.2)

/-- The page after `n` replays on `el`, with every message the listener sent meanwhile;
`flags k` is the mark of the `k`-th dispatched click counted from the last one. -/
def replayMany (cssPath : Element → List Char) (el : Element) (flags : Nat → Bool) :
    Nat → ResponsivelyApp → ResponsivelyApp × List HostMessage
  | 0, app => (app, [])
  | n + 1, app =>
    let r := replayClick cssPath app el (flags n)
    let rest := replayMany cssPath el flags n r.1
    (rest.1, r.2 ++ rest.2)

/-! ## Screenshots -/

deriving instance DecidableEq for Except

/-- The image a page capture resolves to: the viewport of the surface at the scroll offset it
had when the capture was taken. -/
structure NativeImage where
  scrollX : Int
  scrollY : Int
deriving DecidableEq, Repr

/-- Failures of the screenshot code: a page capture that rejects, and a method call on a
value that has no such method. -/
inductive JsError where
  | captureFailure
  | typeError
deriving DecidableEq, Repr

/-- The JavaScript values the screenshot code handles: an image, or the promise returned by
`capturePage()`, which settles to an image or rejects (`none`). -/
inductive JsValue where
  | nativeImage (img : NativeImage)
  | promise (settles : Option NativeImage)
deriving DecidableEq, Repr

/-- A PNG buffer, by the frames it shows from top to bottom. -/
abbrev Buffer := List NativeImage

/-- The webview of one surface together with the effects of the screenshot code on it and on
the host: the scroll offset of the window (as last commanded), the two measures read by the
full-page run, every `window.scrollTo` issued (oldest first), the number of `capturePage`
calls, the files written, and the numbers of `toast.info` and of `alert` calls. -/
structure Webview where
  scrollX : Int
  scrollY : Int
  scrollHeight : Int
  clientHeight : Int
  scrollCommands : List (Int × Int)
  captures : Nat
  files : List (Buffer × List Char)
  toasts : Nat
  alerts : Nat
deriving DecidableEq, Repr

/-- The locale renderings of `now` that the file name is built from:
`now.toLocaleDateString()` and `now.toLocaleTimeString([], {hour12: true})`. -/
structure LocaleDate where
  toLocaleDateString : List Char
  toLocaleTimeString : List Char
deriving DecidableEq, Repr

/-- JavaScript `str.split(sep)` for a one-character separator. -/
def split (sep : Char) : List Char → List (List Char)
  | [] => [[]]
  | c :: cs =>
    if c = sep then [] :: split sep cs
    else
      match split sep cs with
      | [] => [[c]]
      | field :: fields => (c :: field) :: fields

/-- JavaScript `str.replace(/\:/g, '.')`. -/
def replaceColons (s : List Char) : List Char :=
  s.map (fun c => if c = ':' then '.' else c)

/-- JavaScript `str.toUpperCase()`: every code point is replaced by its upper-case mapping.
On the ASCII range that maps the letters `a` to `z` to `A` to `Z` and keeps every other
character; outside it the mapping is the Unicode table of the platform, `upperMapping`, in
which one code point can map to several (the sharp s to `SS`). -/
def toUpperCase (upperMapping : Char → List Char) (s : List Char) : List Char :=
  s.flatMap (fun c => if c.toNat < 128 then [c.toUpper] else upperMapping c)

/-- File name of a screenshot (index.js, `_getScreenshotFileName`). -/
def _getScreenshotFileName (upperMapping : Char → List Char) (device : Device)
    (now : LocaleDate) : List Char :=
  device.name ++ " - ".toList
    ++ "-".toList.intercalate (split '/' now.toLocaleDateString).reverse
    ++ " at ".toList
    ++ toUpperCase upperMapping (replaceColons now.toLocaleTimeString)
    ++ ".png".toList

/-- The script `window.scrollTo(x, y)` run in the webview. -/
def scrollTo (x y : Int) (w : Webview) : Webview :=
  { w with scrollX := x, scrollY := y, scrollCommands := w.scrollCommands ++ [(x, y)] }

/-- Page capture (index.js, `_takeSnapshot`): returns the promise of
`getWebContents().capturePage()`. `fails k` tells whether the `k`-th capture of the webview
rejects. -/
def _takeSnapshot (fails : Nat → Bool) (w : Webview) : JsValue × Webview :=
  (JsValue.promise (if fails w.captures then none else some ⟨w.scrollX, w.scrollY⟩),
    { w with captures := w.captures + 1 })

/-- JavaScript `await v`. -/
def await : JsValue → Except JsError JsValue
  | JsValue.promise (some img) => Except.ok (JsValue.nativeImage img)
  | JsValue.promise none => Except.error JsError.captureFailure
  | v => Except.ok v

/-- The method call `v.toPNG()`: defined on images only. -/
def toPNG : JsValue → Except JsError Buffer
  | JsValue.nativeImage img => Except.ok [img]
  | JsValue.promise _ => Except.error JsError.typeError

/-- The call `mergeImg(pngs, {direction: true})`: the images stacked vertically in order. -/
def mergeImg (pngs : List Buffer) : Buffer :=
  pngs.flatten

/-- Persisting a screenshot (index.js, `_writeScreenshotFile`). `fsThrows name` tells whether
making the folder or writing the file of that name throws. The body is one `try`: when the
write goes through the file exists and a toast is shown; when it throws, the `catch` raises
an alert and nothing is written. The function returns normally either way. -/
def _writeScreenshotFile (fsThrows : List Char → Bool) (content : Buffer) (name : List Char)
    (w : Webview) : Webview :=
  if fsThrows name then { w with alerts := w.alerts + 1 }
  else { w with files := w.files ++ [(content, name)], toasts := w.toasts + 1 }

/-- The `do ... while` loop of `_takeFullPageSnapshot`, entered with the loop variable
`scrollY` and the images pushed so far. `fuel` bounds the number of iterations; `none` means
the loop is still running after `fuel` iterations. -/
def captureLoop (fails : Nat → Bool) (scrollHeight viewPortHeight : Int) :
    Nat → Int → List JsValue → Webview → Option (Except JsError (List JsValue) × Webview)
  | 0, _, _, _ => none
  | fuel + 1, scrollY, images, w =>
    let p := _takeSnapshot fails w
    match await p.1 with
    | Except.error e => some (Except.error e, p.2)
    | Except.ok img =>
      let images := images ++ [img]
      let scrollY := scrollY + viewPortHeight
      let w2 := scrollTo 0 scrollY p.2
      if scrollHeight > scrollY + viewPortHeight then
        captureLoop fails scrollHeight viewPortHeight fuel scrollY images w2
      else some (Except.ok images, w2)

/-- Full-page screenshot (index.js, `_takeFullPageSnapshot`). -/
def _takeFullPageSnapshot (fuel : Nat) (fails : Nat → Bool) (fsThrows : List Char → Bool)
    (upperMapping : Char → List Char) (device : Device) (now : LocaleDate) (w : Webview) :
    Option (Except JsError Unit × Webview) :=
  let scrollPosition := (w.scrollX, w.scrollY)
  let w0 := scrollTo 0 0 w
  let scrollHeight := w0.scrollHeight
  let viewPortHeight := w0.clientHeight
  match captureLoop fails scrollHeight viewPortHeight fuel 0 [] w0 with
  | none => none
  | some (Except.error e, w1) => some (Except.error e, w1)
  | some (Except.ok images, w1) =>
    let w2 := scrollTo scrollPosition.1 scrollPosition.2 w1
    match images.mapM toPNG with
    | Except.error e => some (Except.error e, w2)
    | Except.ok pngs =>
      some (Except.ok (),
        _writeScreenshotFile fsThrows (mergeImg pngs)
          (_getScreenshotFileName upperMapping device now) w2)

/-- Screenshot of the visible section (index.js, `_takeVisibleSectionSnapshot`): the value of
`_takeSnapshot()` is used as it is returned. -/
def _takeVisibleSectionSnapshot (fails : Nat → Bool) (fsThrows : List Char → Bool)
    (upperMapping : Char → List Char) (device : Device) (now : LocaleDate) (w : Webview) :
    Except JsError Unit × Webview :=
  let image := _takeSnapshot fails w
  match toPNG image.1 with
  | Except.error e => (Except.error e, image.2)
  | Except.ok png =>
    (Except.ok (),
      _writeScreenshotFile fsThrows png (_getScreenshotFileName upperMapping device now) image.2)

/-- Iterations that always suffice for the capture loop when the viewport height is
positive. -/
def enoughFuel (w : Webview) : Nat :=
  w.scrollHeight.toNat + 1

/-! ## The event mirror -/

theorem processScrollEvent_self (s : Surface) (m : ScrollMessage)
    (h : m.sourceDeviceId = s.device.id) : processScrollEvent s m = s := by
  simp [processScrollEvent, h]

theorem processScrollEvent_other (s : Surface) (m : ScrollMessage)
    (h : m.sourceDeviceId ≠ s.device.id) :
    processScrollEvent s m = { s with sent := s.sent ++ [IpcSend.scrollMessage m.position] } := by
  simp [processScrollEvent, h]

theorem processClickEvent_self (s : Surface) (m : ClickMessage)
    (h : m.sourceDeviceId = s.device.id) : processClickEvent s m = s := by
  simp [processClickEvent, h]

theorem processClickEvent_other (s : Surface) (m : ClickMessage)
    (h : m.sourceDeviceId ≠ s.device.id) :
    processClickEvent s m = { s with sent := s.sent ++ [IpcSend.clickMessage m] } := by
  simp [processClickEvent, h]

/-- Two positions of a list of surfaces with pairwise distinct device ids that hold the same
id are the same position. -/
theorem deviceId_inj (surfaces : List Surface)
    (hdistinct : (surfaces.map (fun s => s.device.id)).Nodup)
    (i j : Nat) (hi : i < surfaces.length) (hj : j < surfaces.length)
    (h : (surfaces.get ⟨i, hi⟩).device.id = (surfaces.get ⟨j, hj⟩).device.id) : i = j := by
  have hi2 : i < (surfaces.map (fun s => s.device.id)).length := by simpa using hi
  have hj2 : j < (surfaces.map (fun s => s.device.id)).length := by simpa using hj
  have key : (surfaces.map (fun s => s.device.id))[i] = (surfaces.map (fun s => s.device.id))[j] := by
    simpa using h
  exact (List.Nodup.getElem_inj_iff hdistinct).1 key

/-- C1. With pairwise distinct device ids, a scroll or click event published on the bus with
the device id of surface `i` as its source is sent to the webview of every other surface
exactly once (one message appended to what was sent before) and leaves surface `i` as it
was. -/
theorem mirror_reaches_all_but_source (surfaces : List Surface)
    (hdistinct : (surfaces.map (fun s => s.device.id)).Nodup)
    (i : Nat) (hi : i < surfaces.length) (sm : ScrollMessage) (cm : ClickMessage)
    (hs : sm.sourceDeviceId = (surfaces.get ⟨i, hi⟩).device.id)
    (hc : cm.sourceDeviceId = (surfaces.get ⟨i, hi⟩).device.id) :
    ∀ (j : Nat) (hj : j < surfaces.length),
      (publishScroll surfaces sm)[j]? =
          some (if j = i then surfaces.get ⟨j, hj⟩
            else { surfaces.get ⟨j, hj⟩ with
              sent := (surfaces.get ⟨j, hj⟩).sent ++ [IpcSend.scrollMessage sm.position] })
        ∧ (publishClick surfaces cm)[j]? =
          some (if j = i then surfaces.get ⟨j, hj⟩
            else { surfaces.get ⟨j, hj⟩ with
              sent := (surfaces.get ⟨j, hj⟩).sent ++ [IpcSend.clickMessage cm] }) := by
  intro j hj
  by_cases hji : j = i
  · subst hji
    simp [publishScroll, publishClick, List.getElem?_eq_getElem hj,
      processScrollEvent_self _ _ hs, processClickEvent_self _ _ hc]
    exact ⟨processScrollEvent_self _ _ hs, processClickEvent_self _ _ hc⟩
  · have hne : (surfaces.get ⟨i, hi⟩).device.id ≠ (surfaces.get ⟨j, hj⟩).device.id :=
      fun h => hji (deviceId_inj surfaces hdistinct i j hi hj h).symm
    have h1 := processScrollEvent_other (surfaces.get ⟨j, hj⟩) sm (by rw [hs]; exact hne)
    have h2 := processClickEvent_other (surfaces.get ⟨j, hj⟩) cm (by rw [hc]; exact hne)
    simp [publishScroll, publishClick, List.getElem?_eq_getElem hj, hji]
    exact ⟨h1, h2⟩

theorem mirror_reaches_all_but_source_witness :
    (publishScroll [⟨⟨1, []⟩, []⟩, ⟨⟨2, []⟩, []⟩, ⟨⟨3, []⟩, []⟩] ⟨2, ⟨0, 40⟩⟩)[0]? =
        some (if 0 = 1 then ([⟨⟨1, []⟩, []⟩, ⟨⟨2, []⟩, []⟩, ⟨⟨3, []⟩, []⟩] : List Surface).get
            ⟨0, by decide⟩
          else { ([⟨⟨1, []⟩, []⟩, ⟨⟨2, []⟩, []⟩, ⟨⟨3, []⟩, []⟩] : List Surface).get ⟨0, by decide⟩ with
            sent := (([⟨⟨1, []⟩, []⟩, ⟨⟨2, []⟩, []⟩, ⟨⟨3, []⟩, []⟩] : List Surface).get
              ⟨0, by decide⟩).sent ++ [IpcSend.scrollMessage ⟨0, 40⟩] })
      ∧ (publishClick [⟨⟨1, []⟩, []⟩, ⟨⟨2, []⟩, []⟩, ⟨⟨3, []⟩, []⟩] ⟨2, []⟩)[0]? =
        some (if 0 = 1 then ([⟨⟨1, []⟩, []⟩, ⟨⟨2, []⟩, []⟩, ⟨⟨3, []⟩, []⟩] : List Surface).get
            ⟨0, by decide⟩
          else { ([⟨⟨1, []⟩, []⟩, ⟨⟨2, []⟩, []⟩, ⟨⟨3, []⟩, []⟩] : List Surface).get ⟨0, by decide⟩ with
            sent := (([⟨⟨1, []⟩, []⟩, ⟨⟨2, []⟩, []⟩, ⟨⟨3, []⟩, []⟩] : List Surface).get
              ⟨0, by decide⟩).sent ++ [IpcSend.clickMessage ⟨2, []⟩] }) :=
  mirror_reaches_all_but_source [⟨⟨1, []⟩, []⟩, ⟨⟨2, []⟩, []⟩, ⟨⟨3, []⟩, []⟩] (by decide) 1
    (by decide) ⟨2, ⟨0, 40⟩⟩ ⟨2, []⟩ rfl rfl 0 (by decide)

/-! ## The injected listeners -/

/-- A replay never makes the listener send, keeps the device id and clears
`lastClickElement`. -/
theorem replayClick_spec (cssPath : Element → List Char) (app : ResponsivelyApp) (el : Element)
    (flagged : Bool) :
    replayClick cssPath app el flagged = ({ app with lastClickElement := none }, []) := by
  simp [replayClick, clickListener]

theorem replayMany_spec (cssPath : Element → List Char) (el : Element) (flags : Nat → Bool)
    (n : Nat) : ∀ app : ResponsivelyApp,
      (replayMany cssPath el flags n app).2 = []
        ∧ (replayMany cssPath el flags n app).1.deviceId = app.deviceId
        ∧ (replayMany cssPath el flags n app).1.mouseOn = app.mouseOn
        ∧ (1 ≤ n → (replayMany cssPath el flags n app).1.lastClickElement = none) := by
  induction n with
  | zero => intro app; simp [replayMany]
  | succ n ih =>
    intro app
    have h := ih { app with lastClickElement := none }
    simp only [replayMany, replayClick_spec]
    refine ⟨by simpa using h.1, h.2.1, h.2.2.1, fun _ => ?_⟩
    rcases Nat.eq_zero_or_pos n with h0 | hpos
    · subst h0; simp [replayMany]
    · exact h.2.2.2 hpos

/-- C2. For every element and every number `n ≥ 1` of replays (each sets `lastClickElement`
to the element and dispatches one click on it, flagged or not), the click listener sends no
message to the host during the replays and leaves `lastClickElement` null; the suppression
is one-shot: the next un-flagged click on the element sends exactly one click message (with
this surface's device id and the css path of the element), and so does the one after it. -/
theorem replayed_clicks_not_forwarded (cssPath : Element → List Char) (app : ResponsivelyApp)
    (el : Element) (flags : Nat → Bool) (n : Nat) (hn : 1 ≤ n) :
    (replayMany cssPath el flags n app).2 = []
      ∧ (∀ k, k < n →
          (replayClick cssPath (replayMany cssPath el flags k app).1 el (flags k)).2 = [])
      ∧ (replayMany cssPath el flags n app).1.lastClickElement = none
      ∧ (clickListener cssPath (replayMany cssPath el flags n app).1
            { target := el, responsivelyAppProcessed := false }).2.2
          = [HostMessage.click { sourceDeviceId := app.deviceId, cssPath := cssPath el }]
      ∧ (clickListener cssPath
            (clickListener cssPath (replayMany cssPath el flags n app).1
              { target := el, responsivelyAppProcessed := false }).1
            { target := el, responsivelyAppProcessed := false }).2.2
          = [HostMessage.click { sourceDeviceId := app.deviceId, cssPath := cssPath el }] := by
  obtain ⟨h1, h2, _, h4⟩ := replayMany_spec cssPath el flags n app
  have hl := h4 hn
  refine ⟨h1, fun k _ => by simp [replayClick_spec], hl, ?_, ?_⟩
  · simp [clickListener, hl, h2]
  · simp [clickListener, hl, h2]

theorem replayed_clicks_not_forwarded_witness :
    (replayMany (fun _ => "body".toList) 5 (fun k => decide (k = 1)) 3 ⟨2, none, some 9⟩).2 = []
      ∧ (∀ k, k < 3 →
          (replayClick (fun _ => "body".toList)
            (replayMany (fun _ => "body".toList) 5 (fun k => decide (k = 1)) k
              ⟨2, none, some 9⟩).1 5 ((fun k => decide (k = 1)) k)).2 = [])
      ∧ (replayMany (fun _ => "body".toList) 5 (fun k => decide (k = 1)) 3
          ⟨2, none, some 9⟩).1.lastClickElement = none
      ∧ (clickListener (fun _ => "body".toList)
            (replayMany (fun _ => "body".toList) 5 (fun k => decide (k = 1)) 3
              ⟨2, none, some 9⟩).1
            { target := 5, responsivelyAppProcessed := false }).2.2
          = [HostMessage.click
              { sourceDeviceId := (⟨2, none, some 9⟩ : ResponsivelyApp).deviceId,
                cssPath := (fun _ => "body".toList) 5 }]
      ∧ (clickListener (fun _ => "body".toList)
            (clickListener (fun _ => "body".toList)
              (replayMany (fun _ => "body".toList) 5 (fun k => decide (k = 1)) 3
                ⟨2, none, some 9⟩).1
              { target := 5, responsivelyAppProcessed := false }).1
            { target := 5, responsivelyAppProcessed := false }).2.2
          = [HostMessage.click
              { sourceDeviceId := (⟨2, none, some 9⟩ : ResponsivelyApp).deviceId,
                cssPath := (fun _ => "body".toList) 5 }] :=
  replayed_clicks_not_forwarded (fun _ => "body".toList) ⟨2, none, some 9⟩ 5
    (fun k => decide (k = 1)) 3 (by decide)

theorem pageRun_cons (app : ResponsivelyApp) (ev : PageEvent) (rest : List PageEvent) :
    pageRun app (ev :: rest) = pageRun (pageStep app ev).1 rest := by
  simp [pageRun]

/-- The page state after a history: the device id is untouched, and `mouseOn` is what the
most recent pointer event made it, or what it was when there is none. -/
theorem pageRun_spec (history : List PageEvent) : ∀ app : ResponsivelyApp,
    (pageRun app history).deviceId = app.deviceId
      ∧ (pageRun app history).mouseOn =
        if history.any isPointerEvent then some (pointerEngaged history) else app.mouseOn := by
  induction history with
  | nil => intro app; simp [pageRun]
  | cons ev rest ih =>
    intro app
    rw [pageRun_cons]
    obtain ⟨h1, h2⟩ := ih (pageStep app ev).1
    rw [h1, h2]
    cases ev <;> cases hr : rest.any isPointerEvent <;>
      simp [pageStep, mouseenterListener, mouseleaveListener, isPointerEvent, pointerEngaged, hr]

/-- C9. The scroll listener sends exactly one scroll message, carrying the page's device id
and the current `(scrollX, scrollY)`, when `mouseOn` is true, and nothing when it is false or
unset. On a page initialised for `device` whose `mouseOn` starts unset, after any history of
`mouseenter`, `mouseleave` and `scroll` events, a scroll sends that one message with
`sourceDeviceId = device.id` exactly when the most recent pointer event was a `mouseenter`,
and nothing otherwise. -/
theorem scroll_forwarded_iff_pointer_engaged (device : Device) (app : ResponsivelyApp)
    (hunset : app.mouseOn = none) (history : List PageEvent) (x y : Int) :
    (∀ a : ResponsivelyApp, scrollListener a x y =
        if a.mouseOn = some true then
          [HostMessage.scroll { sourceDeviceId := a.deviceId, position := { x := x, y := y } }]
        else [])
      ∧ (mouseenterListener app).mouseOn = some true
      ∧ (mouseleaveListener app).mouseOn = some false
      ∧ (pageStep (pageRun (initEventTriggers device app) history) (PageEvent.scroll x y)).2 =
        if pointerEngaged history then
          [HostMessage.scroll { sourceDeviceId := device.id, position := { x := x, y := y } }]
        else [] := by
  refine ⟨?_, rfl, rfl, ?_⟩
  · intro a
    rcases hm : a.mouseOn with _ | b
    · simp [scrollListener, truthy, hm]
    · cases b <;> simp [scrollListener, truthy, hm]
  · obtain ⟨h1, h2⟩ := pageRun_spec history (initEventTriggers device app)
    have h3 : (initEventTriggers device app).mouseOn = none := by simpa [initEventTriggers] using hunset
    have h4 : (initEventTriggers device app).deviceId = device.id := rfl
    have hno : ∀ h : List PageEvent, h.any isPointerEvent = false → pointerEngaged h = false := by
      intro h
      induction h with
      | nil => intro _; rfl
      | cons ev rest ih =>
        intro hh
        simp only [List.any_cons, Bool.or_eq_false_iff] at hh
        cases ev <;> simp_all [pointerEngaged, isPointerEvent]
    simp only [pageStep, scrollListener, h1, h2, h3, h4]
    cases hr : history.any isPointerEvent
    · simp [truthy, hno history hr]
    · cases hp : pointerEngaged history <;> simp [truthy]

theorem scroll_forwarded_iff_pointer_engaged_witness :
    (∀ a : ResponsivelyApp, scrollListener a 0 120 =
        if a.mouseOn = some true then
          [HostMessage.scroll { sourceDeviceId := a.deviceId, position := { x := 0, y := 120 } }]
        else [])
      ∧ (mouseenterListener ⟨0, none, none⟩).mouseOn = some true
      ∧ (mouseleaveListener ⟨0, none, none⟩).mouseOn = some false
      ∧ (pageStep (pageRun (initEventTriggers ⟨4, []⟩ ⟨0, none, none⟩)
            [PageEvent.mouseleave, PageEvent.mouseenter, PageEvent.scroll 0 60])
          (PageEvent.scroll 0 120)).2 =
        if pointerEngaged [PageEvent.mouseleave, PageEvent.mouseenter, PageEvent.scroll 0 60] then
          [HostMessage.scroll
            { sourceDeviceId := Device.id ⟨4, []⟩, position := { x := 0, y := 120 } }]
        else [] :=
  scroll_forwarded_iff_pointer_engaged ⟨4, []⟩ ⟨0, none, none⟩ rfl
    [PageEvent.mouseleave, PageEvent.mouseenter, PageEvent.scroll 0 60] 0 120

/-! ## The capture loop -/

/-- One iteration of the loop whose capture succeeds and whose condition holds. -/
theorem captureLoop_continue (fails : Nat → Bool) (scrollHeight viewPortHeight : Int)
    (fuel : Nat) (scrollY : Int) (images : List JsValue) (w : Webview)
    (hcap : fails w.captures = false)
    (hcond : scrollHeight > scrollY + viewPortHeight + viewPortHeight) :
    captureLoop fails scrollHeight viewPortHeight (fuel + 1) scrollY images w =
      captureLoop fails scrollHeight viewPortHeight fuel (scrollY + viewPortHeight)
        (images ++ [JsValue.nativeImage ⟨w.scrollX, w.scrollY⟩])
        (scrollTo 0 (scrollY + viewPortHeight) { w with captures := w.captures + 1 }) := by
  simp [captureLoop, _takeSnapshot, hcap, await, hcond]

/-- The last iteration: the capture succeeds and the condition fails. -/
theorem captureLoop_exit (fails : Nat → Bool) (scrollHeight viewPortHeight : Int)
    (fuel : Nat) (scrollY : Int) (images : List JsValue) (w : Webview)
    (hcap : fails w.captures = false)
    (hcond : ¬ scrollHeight > scrollY + viewPortHeight + viewPortHeight) :
    captureLoop fails scrollHeight viewPortHeight (fuel + 1) scrollY images w =
      some (Except.ok (images ++ [JsValue.nativeImage ⟨w.scrollX, w.scrollY⟩]),
        scrollTo 0 (scrollY + viewPortHeight) { w with captures := w.captures + 1 }) := by
  simp [captureLoop, _takeSnapshot, hcap, await, hcond]

/-- An iteration whose capture rejects ends the loop with the failure. -/
theorem captureLoop_reject (fails : Nat → Bool) (scrollHeight viewPortHeight : Int)
    (fuel : Nat) (scrollY : Int) (images : List JsValue) (w : Webview)
    (hcap : fails w.captures = true) :
    captureLoop fails scrollHeight viewPortHeight (fuel + 1) scrollY images w =
      some (Except.error JsError.captureFailure, { w with captures := w.captures + 1 }) := by
  simp [captureLoop, _takeSnapshot, hcap, await]

theorem range_succ_map {α : Type} (f : Nat → α) (m : Nat) :
    (List.range (m + 1)).map f = f 0 :: (List.range m).map (fun k => f (k + 1)) := by
  rw [List.range_succ_eq_map]
  simp [List.map_map, Function.comp_def]

/-- With every capture succeeding and a positive viewport height the loop ends, after some
`m ≥ 1` iterations: it captured at `scrollY + k * viewPortHeight` for `k < m`, scrolled after
each capture, and `m` is the first count at which the loop condition fails. -/
theorem captureLoop_completes (fails : Nat → Bool) (hcap : ∀ k, fails k = false)
    (scrollHeight viewPortHeight : Int) (hv : 0 < viewPortHeight) :
    ∀ (fuel : Nat) (scrollY : Int) (images : List JsValue) (w : Webview),
      (scrollHeight - scrollY).toNat < fuel → w.scrollX = 0 → w.scrollY = scrollY →
      ∃ m : Nat, 1 ≤ m ∧ scrollHeight ≤ scrollY + ((m : Int) + 1) * viewPortHeight
        ∧ (m = 1 ∨ scrollY + (m : Int) * viewPortHeight < scrollHeight)
        ∧ captureLoop fails scrollHeight viewPortHeight fuel scrollY images w =
          some (Except.ok (images ++ (List.range m).map
              (fun k : Nat => JsValue.nativeImage ⟨0, scrollY + (k : Int) * viewPortHeight⟩)),
            { w with
              scrollX := 0
              scrollY := scrollY + (m : Int) * viewPortHeight
              scrollCommands := w.scrollCommands ++ (List.range m).map
                (fun k : Nat => ((0 : Int), scrollY + ((k : Int) + 1) * viewPortHeight))
              captures := w.captures + m }) := by
  intro fuel
  induction fuel with
  | zero => intro s images w hf; omega
  | succ fuel ih =>
    intro s images w hf hx hy
    by_cases hc : scrollHeight > s + viewPortHeight + viewPortHeight
    · obtain ⟨m, hm1, hm2, hm3, hm4⟩ := ih (s + viewPortHeight)
        (images ++ [JsValue.nativeImage ⟨w.scrollX, w.scrollY⟩])
        (scrollTo 0 (s + viewPortHeight) { w with captures := w.captures + 1 })
        (by omega) rfl rfl
      refine ⟨m + 1, by omega, ?_, Or.inr ?_, ?_⟩
      · push_cast; linarith
      · rcases hm3 with rfl | h
        · push_cast; linarith
        · push_cast; linarith
      · rw [captureLoop_continue fails scrollHeight viewPortHeight fuel s images w (hcap _) hc,
          hm4, range_succ_map, range_succ_map]
        simp only [scrollTo, hx, hy, List.append_assoc, List.singleton_append, Nat.cast_add,
          Nat.cast_one, Nat.cast_zero, zero_mul, add_zero, zero_add, one_mul]
        have e1 : ∀ k : Nat, s + viewPortHeight + (k : Int) * viewPortHeight
            = s + ((k : Int) + 1) * viewPortHeight := fun k => by ring
        have e2 : ∀ k : Nat, s + viewPortHeight + ((k : Int) + 1) * viewPortHeight
            = s + ((k : Int) + 1 + 1) * viewPortHeight := fun k => by ring
        have e3 : s + viewPortHeight + (m : Int) * viewPortHeight
            = s + ((m : Int) + 1) * viewPortHeight := by ring
        have e4 : w.captures + 1 + m = w.captures + (m + 1) := by omega
        simp only [e1, e2, e3, e4]
    · refine ⟨1, le_refl 1, by push_cast; linarith, Or.inl rfl, ?_⟩
      rw [captureLoop_exit fails scrollHeight viewPortHeight fuel s images w (hcap _) hc]
      simp [scrollTo, hx, hy, List.range_succ]

/-- With a viewport height of zero and the page taller than the loop variable, the loop is
still running after any number of iterations. -/
theorem captureLoop_diverges (fails : Nat → Bool) (hcap : ∀ k, fails k = false)
    (scrollHeight : Int) :
    ∀ (fuel : Nat) (scrollY : Int) (images : List JsValue) (w : Webview),
      scrollY < scrollHeight →
      captureLoop fails scrollHeight 0 fuel scrollY images w = none := by
  intro fuel
  induction fuel with
  | zero => intro s images w _; rfl
  | succ fuel ih =>
    intro s images w hs
    rw [captureLoop_continue fails scrollHeight 0 fuel s images w (hcap _) (by linarith)]
    exact ih _ _ _ (by linarith)

/-- The loop when the capture of frame `j` (counted from the loop entry) is the first to
reject and the loop gets that far: it ends with the failure, having scrolled `j` times. -/
theorem captureLoop_fails_at (fails : Nat → Bool) (scrollHeight viewPortHeight : Int) :
    ∀ (j fuel : Nat) (scrollY : Int) (images : List JsValue) (w : Webview),
      j < fuel → w.scrollX = 0 → w.scrollY = scrollY →
      (∀ i, i < j → fails (w.captures + i) = false) → fails (w.captures + j) = true →
      (∀ i : Nat, i < j → scrollHeight > scrollY + ((i : Int) + 2) * viewPortHeight) →
      captureLoop fails scrollHeight viewPortHeight fuel scrollY images w =
        some (Except.error JsError.captureFailure,
          { w with
            scrollX := 0
            scrollY := scrollY + (j : Int) * viewPortHeight
            scrollCommands := w.scrollCommands ++ (List.range j).map
              (fun k : Nat => ((0 : Int), scrollY + ((k : Int) + 1) * viewPortHeight))
            captures := w.captures + j + 1 }) := by
  intro j
  induction j with
  | zero =>
    intro fuel s images w hf hx hy _ hfail _
    obtain ⟨fuel, rfl⟩ : ∃ f, fuel = f + 1 := ⟨fuel - 1, by omega⟩
    rw [captureLoop_reject fails scrollHeight viewPortHeight fuel s images w (by simpa using hfail)]
    obtain ⟨wx, wy, wsh, wch, wsc, wc, wf⟩ := w
    simp only at hx hy
    subst hx hy
    simp
  | succ j ih =>
    intro fuel s images w hf hx hy hok hfail hcond
    obtain ⟨fuel, rfl⟩ : ∃ f, fuel = f + 1 := ⟨fuel - 1, by omega⟩
    have h0 : fails w.captures = false := by simpa using hok 0 (by omega)
    have hc : scrollHeight > s + viewPortHeight + viewPortHeight := by
      have := hcond 0 (by omega)
      push_cast at this
      linarith
    rw [captureLoop_continue fails scrollHeight viewPortHeight fuel s images w h0 hc,
      ih fuel (s + viewPortHeight) _ _ (by omega) rfl rfl
        (fun i hi => by
          have := hok (i + 1) (by omega)
          simpa [scrollTo, Nat.add_assoc, Nat.add_comm 1 i] using this)
        (by simpa [scrollTo, Nat.add_assoc, Nat.add_comm 1 j] using hfail)
        (fun i hi => by
          have := hcond (i + 1) (by omega)
          push_cast at this
          linarith),
      range_succ_map]
    simp only [scrollTo, List.append_assoc, List.singleton_append, Nat.cast_add,
      Nat.cast_one, Nat.cast_zero, zero_mul, add_zero, zero_add, one_mul]
    have e2 : ∀ k : Nat, s + viewPortHeight + ((k : Int) + 1) * viewPortHeight
        = s + ((k : Int) + 1 + 1) * viewPortHeight := fun k => by ring
    have e3 : s + viewPortHeight + (j : Int) * viewPortHeight
        = s + ((j : Int) + 1) * viewPortHeight := by ring
    have e4 : w.captures + 1 + j + 1 = w.captures + (j + 1) + 1 := by omega
    simp only [e2, e3, e4]

/-! ## The full-page run -/

theorem mapM_toPNG (l : List NativeImage) :
    (l.map JsValue.nativeImage).mapM toPNG = Except.ok (l.map (fun img => [img])) := by
  induction l with
  | nil => rfl
  | cons img rest ih =>
    simp only [List.map_cons, List.mapM_cons, ih, toPNG]
    rfl

theorem flatten_singletons (l : List NativeImage) : (l.map (fun img => [img])).flatten = l := by
  induction l with
  | nil => rfl
  | cons img rest ih => simp [ih]

/-- The successful run: with every capture succeeding and a positive viewport height the run
ends for every fuel from `enoughFuel` on, having captured `m ≥ 1` frames, the `k`-th at
`k * viewPortHeight`, scrolled after each capture, restored the offset read at the start and
handed the stacked frames to `_writeScreenshotFile` once. -/
theorem takeFullPageSnapshot_completes (fails : Nat → Bool) (hcap : ∀ k, fails k = false)
    (fsThrows : List Char → Bool) (upperMapping : Char → List Char)
    (device : Device) (now : LocaleDate) (w : Webview) (hv : 0 < w.clientHeight)
    (fuel : Nat) (hf : enoughFuel w ≤ fuel) :
    ∃ m : Nat, 1 ≤ m ∧ w.scrollHeight ≤ ((m : Int) + 1) * w.clientHeight
      ∧ (m = 1 ∨ (m : Int) * w.clientHeight < w.scrollHeight)
      ∧ _takeFullPageSnapshot fuel fails fsThrows upperMapping device now w =
        some (Except.ok (),
          _writeScreenshotFile fsThrows
            ((List.range m).map (fun k : Nat => (⟨0, (k : Int) * w.clientHeight⟩ : NativeImage)))
            (_getScreenshotFileName upperMapping device now)
            { w with
              scrollCommands := w.scrollCommands ++ ((0 : Int), (0 : Int)) ::
                (List.range m).map (fun k : Nat => ((0 : Int), ((k : Int) + 1) * w.clientHeight))
                ++ [(w.scrollX, w.scrollY)]
              captures := w.captures + m }) := by
  obtain ⟨m, hm1, hm2, hm3, hm4⟩ := captureLoop_completes fails hcap w.scrollHeight
    w.clientHeight hv fuel 0 [] (scrollTo 0 0 w)
    (by simp only [enoughFuel] at hf; simp only [sub_zero]; omega) rfl rfl
  refine ⟨m, hm1, by simpa using hm2, by simpa using hm3, ?_⟩
  have himg : (List.range m).map
      (fun k : Nat => JsValue.nativeImage ⟨0, 0 + (k : Int) * w.clientHeight⟩)
      = ((List.range m).map (fun k : Nat => (⟨0, (k : Int) * w.clientHeight⟩ : NativeImage))).map
        JsValue.nativeImage := by
    simp [List.map_map, Function.comp_def]
  simp only [_takeFullPageSnapshot]
  have hsh : (scrollTo 0 0 w).scrollHeight = w.scrollHeight := rfl
  have hch : (scrollTo 0 0 w).clientHeight = w.clientHeight := rfl
  rw [hsh, hch, hm4]
  simp only [List.nil_append, himg, mapM_toPNG, mergeImg, flatten_singletons]
  simp [scrollTo]

/-- The number of iterations is the one the ceiling formula gives. -/
theorem count_eq_ceil (scrollHeight viewPortHeight : Int) (hv : 0 < viewPortHeight) (m : Nat)
    (h1 : 1 ≤ m) (h2 : scrollHeight ≤ ((m : Int) + 1) * viewPortHeight)
    (h3 : m = 1 ∨ (m : Int) * viewPortHeight < scrollHeight) :
    (m : Int) = max 1 (⌈(scrollHeight : ℚ) / (viewPortHeight : ℚ)⌉ - 1) := by
  have hvq : (0 : ℚ) < (viewPortHeight : ℚ) := by exact_mod_cast hv
  have h2q : (scrollHeight : ℚ) ≤ ((m : ℚ) + 1) * (viewPortHeight : ℚ) := by exact_mod_cast h2
  rcases h3 with rfl | h3
  · have hle : ⌈(scrollHeight : ℚ) / (viewPortHeight : ℚ)⌉ ≤ 2 := by
      rw [Int.ceil_le, div_le_iff₀ hvq]
      push_cast at h2q ⊢
      linarith
    rw [max_eq_left (by omega)]
    rfl
  · have h3q : (m : ℚ) * (viewPortHeight : ℚ) < (scrollHeight : ℚ) := by exact_mod_cast h3
    have hceil : ⌈(scrollHeight : ℚ) / (viewPortHeight : ℚ)⌉ = (m : Int) + 1 := by
      rw [Int.ceil_eq_iff]
      constructor
      · rw [lt_div_iff₀ hvq]
        push_cast
        linarith
      · rw [div_le_iff₀ hvq]
        push_cast
        linarith
    rw [hceil, max_eq_right (by omega)]
    ring

/-- C3. The run on a page with `scrollHeight = 2500` and `viewPortHeight = 1000`, every
capture succeeding: it ends with two captures, at the offsets 0 and 1000, and writes a file
showing those two frames; no frame is taken at 2000, the loop only scrolls there. -/
theorem fullPage_2500_by_1000_captures_two_frames :
    _takeFullPageSnapshot 2501 (fun _ => false) (fun _ => false) (fun c => [c])
        ⟨1, "iPhone 12".toList⟩
        ⟨"05/01/2024".toList, "2:30:00 pm".toList⟩ ⟨0, 0, 2500, 1000, [], 0, [], 0, 0⟩
      = some (Except.ok (),
          ⟨0, 0, 2500, 1000, [(0, 0), (0, 1000), (0, 2000), (0, 0)], 2,
            [([⟨0, 0⟩, ⟨0, 1000⟩], "iPhone 12 - 2024-01-05 at 2.30.00 PM.png".toList)], 1, 0⟩) := by
  decide

/-- C4. With every capture succeeding and a positive viewport height, the run ends (for every
fuel from `enoughFuel` on, and whether or not the file can be written) fulfilled; the last
scroll command it issued targets the offset read before the run, and the surface's final
offset equals that offset in both coordinates. -/
theorem fullPage_restores_scroll_offset (fails : Nat → Bool) (hcap : ∀ k, fails k = false)
    (fsThrows : List Char → Bool) (upperMapping : Char → List Char)
    (device : Device) (now : LocaleDate) (w : Webview) (hv : 0 < w.clientHeight)
    (fuel : Nat) (hf : enoughFuel w ≤ fuel) :
    ∃ w2 : Webview,
      _takeFullPageSnapshot fuel fails fsThrows upperMapping device now w
        = some (Except.ok (), w2)
      ∧ w2.scrollCommands.getLast? = some (w.scrollX, w.scrollY)
      ∧ w.scrollCommands.length < w2.scrollCommands.length
      ∧ w2.scrollX = w.scrollX ∧ w2.scrollY = w.scrollY := by
  obtain ⟨m, _, _, _, hrun⟩ :=
    takeFullPageSnapshot_completes fails hcap fsThrows upperMapping device now w hv fuel hf
  refine ⟨_, hrun, ?_, ?_, ?_, ?_⟩
  · by_cases hw : fsThrows (_getScreenshotFileName upperMapping device now) = true
    · simp only [_writeScreenshotFile, hw, if_true]
      exact List.getLast?_concat _
    · simp only [_writeScreenshotFile, hw]
      exact List.getLast?_concat _
  · by_cases hw : fsThrows (_getScreenshotFileName upperMapping device now) = true <;>
      simp [_writeScreenshotFile, hw]
  · by_cases hw : fsThrows (_getScreenshotFileName upperMapping device now) = true <;>
      simp [_writeScreenshotFile, hw]
  · by_cases hw : fsThrows (_getScreenshotFileName upperMapping device now) = true <;>
      simp [_writeScreenshotFile, hw]

theorem fullPage_restores_scroll_offset_witness :
    ∃ w2 : Webview,
      _takeFullPageSnapshot 4000 (fun _ => false) (fun _ => false) (fun c => [c])
          ⟨1, "iPhone 12".toList⟩
          ⟨"05/01/2024".toList, "2:30:00 pm".toList⟩ ⟨7, 300, 2500, 1000, [], 0, [], 0, 0⟩
        = some (Except.ok (), w2)
      ∧ w2.scrollCommands.getLast?
        = some ((⟨7, 300, 2500, 1000, [], 0, [], 0, 0⟩ : Webview).scrollX,
            (⟨7, 300, 2500, 1000, [], 0, [], 0, 0⟩ : Webview).scrollY)
      ∧ (⟨7, 300, 2500, 1000, [], 0, [], 0, 0⟩ : Webview).scrollCommands.length
        < w2.scrollCommands.length
      ∧ w2.scrollX = (⟨7, 300, 2500, 1000, [], 0, [], 0, 0⟩ : Webview).scrollX
      ∧ w2.scrollY = (⟨7, 300, 2500, 1000, [], 0, [], 0, 0⟩ : Webview).scrollY :=
  fullPage_restores_scroll_offset (fun _ => false) (fun _ => rfl) (fun _ => false)
    (fun c => [c]) ⟨1, "iPhone 12".toList⟩
    ⟨"05/01/2024".toList, "2:30:00 pm".toList⟩ ⟨7, 300, 2500, 1000, [], 0, [], 0, 0⟩
    (by decide) 4000 (by decide)

/-- C5, as the specification states it, fails: on a page of height 3500 with a viewport of
1000 (a three-frame run) entered at offset (7, 300), when the capture of the second frame
rejects, the run reports the failure and writes nothing, but it issues no restoring scroll:
the surface is left at (0, 1000), not at (7, 300). -/
theorem fullPage_failed_capture_leaves_offset :
    _takeFullPageSnapshot 3501 (fun k => decide (k = 1)) (fun _ => false) (fun c => [c])
        ⟨1, "iPhone 12".toList⟩
        ⟨"05/01/2024".toList, "2:30:00 pm".toList⟩ ⟨7, 300, 3500, 1000, [], 0, [], 0, 0⟩
      = some (Except.error JsError.captureFailure,
          ⟨0, 1000, 3500, 1000, [(0, 0), (0, 1000)], 2, [], 0, 0⟩)
      ∧ ((0 : Int), (1000 : Int)) ≠ (7, 300) := by
  decide

/-- C5, amended. When the capture of frame `j` is the first to reject and the loop gets as far
as frame `j` (its condition held after each earlier capture), the run ends with the capture
failure as its outcome, hands nothing to `_writeScreenshotFile` (no file, no toast, no
alert), and issues no scroll command after the failed capture: the commands are the reset and
the `j` loop scrolls, and the surface is left at `(0, j * viewPortHeight)`. -/
theorem fullPage_capture_failure (fails : Nat → Bool) (fsThrows : List Char → Bool)
    (upperMapping : Char → List Char) (device : Device) (now : LocaleDate)
    (w : Webview) (j fuel : Nat) (hfuel : j < fuel)
    (hok : ∀ i, i < j → fails (w.captures + i) = false)
    (hfail : fails (w.captures + j) = true)
    (hreach : ∀ i : Nat, i < j → w.scrollHeight > ((i : Int) + 2) * w.clientHeight) :
    _takeFullPageSnapshot fuel fails fsThrows upperMapping device now w =
      some (Except.error JsError.captureFailure,
        { w with
          scrollX := 0
          scrollY := (j : Int) * w.clientHeight
          scrollCommands := w.scrollCommands ++ ((0 : Int), (0 : Int)) ::
            (List.range j).map (fun k : Nat => ((0 : Int), ((k : Int) + 1) * w.clientHeight))
          captures := w.captures + j + 1
          files := w.files
          toasts := w.toasts
          alerts := w.alerts }) := by
  have hloop := captureLoop_fails_at fails w.scrollHeight w.clientHeight j fuel 0 []
    (scrollTo 0 0 w) hfuel rfl rfl hok hfail (fun i hi => by simpa using hreach i hi)
  simp only [_takeFullPageSnapshot]
  have hsh : (scrollTo 0 0 w).scrollHeight = w.scrollHeight := rfl
  have hch : (scrollTo 0 0 w).clientHeight = w.clientHeight := rfl
  rw [hsh, hch, hloop]
  simp [scrollTo]

theorem fullPage_capture_failure_witness :
    _takeFullPageSnapshot 5 (fun k => decide (k = 1)) (fun _ => false) (fun c => [c])
        ⟨1, "iPhone 12".toList⟩
        ⟨"05/01/2024".toList, "2:30:00 pm".toList⟩ ⟨7, 300, 3500, 1000, [], 0, [], 0, 0⟩ =
      some (Except.error JsError.captureFailure,
        { (⟨7, 300, 3500, 1000, [], 0, [], 0, 0⟩ : Webview) with
          scrollX := 0
          scrollY := ((1 : Nat) : Int)
            * (⟨7, 300, 3500, 1000, [], 0, [], 0, 0⟩ : Webview).clientHeight
          scrollCommands := (⟨7, 300, 3500, 1000, [], 0, [], 0, 0⟩ : Webview).scrollCommands
            ++ ((0 : Int), (0 : Int)) :: (List.range 1).map (fun k : Nat =>
              ((0 : Int), ((k : Int) + 1)
                * (⟨7, 300, 3500, 1000, [], 0, [], 0, 0⟩ : Webview).clientHeight))
          captures := (⟨7, 300, 3500, 1000, [], 0, [], 0, 0⟩ : Webview).captures + 1 + 1
          files := (⟨7, 300, 3500, 1000, [], 0, [], 0, 0⟩ : Webview).files
          toasts := (⟨7, 300, 3500, 1000, [], 0, [], 0, 0⟩ : Webview).toasts
          alerts := (⟨7, 300, 3500, 1000, [], 0, [], 0, 0⟩ : Webview).alerts }) :=
  fullPage_capture_failure (fun k => decide (k = 1)) (fun _ => false) (fun c => [c])
    ⟨1, "iPhone 12".toList⟩
    ⟨"05/01/2024".toList, "2:30:00 pm".toList⟩ ⟨7, 300, 3500, 1000, [], 0, [], 0, 0⟩ 1 5
    (by decide) (by decide) (by decide) (by decide)

/-- C6, as the specification states it, fails: on a page of height 800 in a viewport of 1000,
entered at offset (7, 300), the run captures one frame but issues three scroll commands, the
reset, a scroll to (0, 1000) after the capture, and the restore. -/
theorem fullPage_short_page_scrolls_after_capture :
    _takeFullPageSnapshot 801 (fun _ => false) (fun _ => false) (fun c => [c])
        ⟨1, "iPhone 12".toList⟩
        ⟨"05/01/2024".toList, "2:30:00 pm".toList⟩ ⟨7, 300, 800, 1000, [], 0, [], 0, 0⟩
      = some (Except.ok (),
          ⟨7, 300, 800, 1000, [(0, 0), (0, 1000), (7, 300)], 1,
            [([⟨0, 0⟩], "iPhone 12 - 2024-01-05 at 2.30.00 PM.png".toList)], 1, 0⟩)
      ∧ [((0 : Int), (0 : Int)), (0, 1000), (7, 300)] ≠ [(0, 0), (7, 300)] := by
  decide

/-- C6, amended. For a page with `0 < scrollHeight ≤ viewPortHeight` and every capture
succeeding, the run captures exactly one frame (at offset 0) and issues exactly three scroll
commands: the reset to (0, 0), the loop's scroll to `(0, viewPortHeight)` after the capture,
and the restore to the original offset. That frame is handed to `_writeScreenshotFile` once:
when the write goes through it is the content of the one file written (and a toast is
shown), when the write throws no file is written (and an alert is raised). -/
theorem fullPage_short_page (fails : Nat → Bool) (hcap : ∀ k, fails k = false)
    (fsThrows : List Char → Bool) (upperMapping : Char → List Char)
    (device : Device) (now : LocaleDate) (w : Webview) (hpos : 0 < w.scrollHeight)
    (hshort : w.scrollHeight ≤ w.clientHeight) (fuel : Nat) (hf : enoughFuel w ≤ fuel) :
    _takeFullPageSnapshot fuel fails fsThrows upperMapping device now w =
      some (Except.ok (),
        if fsThrows (_getScreenshotFileName upperMapping device now) then
          { w with
            scrollCommands := w.scrollCommands ++
              [((0 : Int), (0 : Int)), (0, w.clientHeight), (w.scrollX, w.scrollY)]
            captures := w.captures + 1
            alerts := w.alerts + 1 }
        else
          { w with
            scrollCommands := w.scrollCommands ++
              [((0 : Int), (0 : Int)), (0, w.clientHeight), (w.scrollX, w.scrollY)]
            captures := w.captures + 1
            files := w.files ++ [([⟨0, 0⟩], _getScreenshotFileName upperMapping device now)]
            toasts := w.toasts + 1 }) := by
  have hv : 0 < w.clientHeight := lt_of_lt_of_le hpos hshort
  obtain ⟨m, hm1, _, hm3, hrun⟩ :=
    takeFullPageSnapshot_completes fails hcap fsThrows upperMapping device now w hv fuel hf
  have hm : m = 1 := by
    rcases hm3 with h | h
    · exact h
    · exfalso
      have h1 : (1 : Int) ≤ (m : Int) := by exact_mod_cast hm1
      nlinarith
  subst hm
  rw [hrun]
  by_cases hw : fsThrows (_getScreenshotFileName upperMapping device now) = true <;>
    simp [_writeScreenshotFile, hw, List.range_succ]

theorem fullPage_short_page_witness :
    _takeFullPageSnapshot 900 (fun _ => false) (fun _ => false) (fun c => [c])
        ⟨1, "iPhone 12".toList⟩
        ⟨"05/01/2024".toList, "2:30:00 pm".toList⟩ ⟨7, 300, 800, 1000, [], 0, [], 0, 0⟩ =
      some (Except.ok (),
        if (fun _ => false : List Char → Bool) (_getScreenshotFileName (fun c => [c])
            ⟨1, "iPhone 12".toList⟩ ⟨"05/01/2024".toList, "2:30:00 pm".toList⟩) then
          { (⟨7, 300, 800, 1000, [], 0, [], 0, 0⟩ : Webview) with
            scrollCommands := (⟨7, 300, 800, 1000, [], 0, [], 0, 0⟩ : Webview).scrollCommands ++
              [((0 : Int), (0 : Int)),
                (0, (⟨7, 300, 800, 1000, [], 0, [], 0, 0⟩ : Webview).clientHeight),
                ((⟨7, 300, 800, 1000, [], 0, [], 0, 0⟩ : Webview).scrollX,
                  (⟨7, 300, 800, 1000, [], 0, [], 0, 0⟩ : Webview).scrollY)]
            captures := (⟨7, 300, 800, 1000, [], 0, [], 0, 0⟩ : Webview).captures + 1
            alerts := (⟨7, 300, 800, 1000, [], 0, [], 0, 0⟩ : Webview).alerts + 1 }
        else
          { (⟨7, 300, 800, 1000, [], 0, [], 0, 0⟩ : Webview) with
            scrollCommands := (⟨7, 300, 800, 1000, [], 0, [], 0, 0⟩ : Webview).scrollCommands ++
              [((0 : Int), (0 : Int)),
                (0, (⟨7, 300, 800, 1000, [], 0, [], 0, 0⟩ : Webview).clientHeight),
                ((⟨7, 300, 800, 1000, [], 0, [], 0, 0⟩ : Webview).scrollX,
                  (⟨7, 300, 800, 1000, [], 0, [], 0, 0⟩ : Webview).scrollY)]
            captures := (⟨7, 300, 800, 1000, [], 0, [], 0, 0⟩ : Webview).captures + 1
            files := (⟨7, 300, 800, 1000, [], 0, [], 0, 0⟩ : Webview).files ++
              [([⟨0, 0⟩], _getScreenshotFileName (fun c => [c]) ⟨1, "iPhone 12".toList⟩
                ⟨"05/01/2024".toList, "2:30:00 pm".toList⟩)]
            toasts := (⟨7, 300, 800, 1000, [], 0, [], 0, 0⟩ : Webview).toasts + 1 }) :=
  fullPage_short_page (fun _ => false) (fun _ => rfl) (fun _ => false) (fun c => [c])
    ⟨1, "iPhone 12".toList⟩
    ⟨"05/01/2024".toList, "2:30:00 pm".toList⟩ ⟨7, 300, 800, 1000, [], 0, [], 0, 0⟩ (by decide)
    (by decide) 900 (by decide)

/-- C8. The visible-section snapshot calls `toPNG` on the promise that `_takeSnapshot`
returns: whatever the surface and whether or not the capture succeeds, it ends with a type
error after starting one capture, issues no scroll command and writes no file. -/
theorem visibleSection_snapshot_rejects (fails : Nat → Bool) (fsThrows : List Char → Bool)
    (upperMapping : Char → List Char) (device : Device) (now : LocaleDate) (w : Webview) :
    _takeVisibleSectionSnapshot fails fsThrows upperMapping device now w =
      (Except.error JsError.typeError, { w with captures := w.captures + 1 })
    ∧ (_takeVisibleSectionSnapshot fails fsThrows upperMapping device now w).2.files = w.files
    ∧ (_takeVisibleSectionSnapshot fails fsThrows upperMapping device now w).2.scrollCommands
        = w.scrollCommands := by
  refine ⟨?_, ?_, ?_⟩ <;> simp [_takeVisibleSectionSnapshot, _takeSnapshot, toPNG]

/-! ## The capture count -/

/-- C10. For every integer `scrollHeight` and every `viewPortHeight > 0`, with every capture
succeeding, the loop entered as the run enters it ends for every fuel above `scrollHeight`,
after exactly `n = max(1, ⌈scrollHeight / viewPortHeight⌉ - 1)` captures, the `k`-th at offset
`k * viewPortHeight`; every frame after the first has `offset + viewPortHeight <
scrollHeight`; and when `scrollHeight > viewPortHeight` the band from `n * viewPortHeight` to
`scrollHeight` is not empty and every captured frame ends at or above its start. For
`viewPortHeight = 0` and `scrollHeight > 0` the loop is still running after any number of
iterations. -/
theorem captureLoop_frame_count (fails : Nat → Bool) (hcap : ∀ k, fails k = false)
    (w : Webview) (scrollHeight viewPortHeight : Int) :
    (0 < viewPortHeight →
      ∃ n : Nat, (n : Int) = max 1 (⌈(scrollHeight : ℚ) / (viewPortHeight : ℚ)⌉ - 1)
        ∧ (∀ fuel : Nat, scrollHeight.toNat + 1 ≤ fuel →
            ∃ w2 : Webview,
              captureLoop fails scrollHeight viewPortHeight fuel 0 [] (scrollTo 0 0 w) =
                some (Except.ok ((List.range n).map
                  (fun k : Nat => JsValue.nativeImage ⟨0, (k : Int) * viewPortHeight⟩)), w2)
              ∧ w2.captures = w.captures + n)
        ∧ (∀ k : Nat, 1 ≤ k → k < n → (k : Int) * viewPortHeight + viewPortHeight < scrollHeight)
        ∧ (viewPortHeight < scrollHeight →
            (n : Int) * viewPortHeight < scrollHeight
              ∧ ∀ k : Nat, k < n →
                (k : Int) * viewPortHeight + viewPortHeight ≤ (n : Int) * viewPortHeight))
      ∧ (viewPortHeight = 0 → 0 < scrollHeight →
          ∀ fuel : Nat,
            captureLoop fails scrollHeight viewPortHeight fuel 0 [] (scrollTo 0 0 w) = none) := by
  constructor
  · intro hv
    obtain ⟨n, hn1, hn2, hn3, _⟩ := captureLoop_completes fails hcap scrollHeight
      viewPortHeight hv (scrollHeight.toNat + 1) 0 [] (scrollTo 0 0 w)
      (by simp only [sub_zero]; omega) rfl rfl
    simp only [zero_add] at hn2 hn3
    have hn := count_eq_ceil scrollHeight viewPortHeight hv n hn1 hn2 hn3
    have hmono : ∀ k : Nat, k < n →
        (k : Int) * viewPortHeight + viewPortHeight ≤ (n : Int) * viewPortHeight := by
      intro k hk
      have hk1 : (k : Int) + 1 ≤ (n : Int) := by exact_mod_cast hk
      nlinarith
    refine ⟨n, hn, ?_, ?_, ?_⟩
    · intro fuel hfuel
      obtain ⟨m, hm1, hm2, hm3, hm4⟩ := captureLoop_completes fails hcap scrollHeight
        viewPortHeight hv fuel 0 [] (scrollTo 0 0 w) (by simp only [sub_zero]; omega) rfl rfl
      simp only [zero_add] at hm2 hm3
      have hm := count_eq_ceil scrollHeight viewPortHeight hv m hm1 hm2 hm3
      have hmn : m = n := by
        have : (m : Int) = (n : Int) := by rw [hm, hn]
        exact_mod_cast this
      subst hmn
      refine ⟨{ scrollTo 0 0 w with
        scrollX := 0
        scrollY := 0 + (m : Int) * viewPortHeight
        scrollCommands := (scrollTo 0 0 w).scrollCommands ++ (List.range m).map
          (fun k : Nat => ((0 : Int), 0 + ((k : Int) + 1) * viewPortHeight))
        captures := (scrollTo 0 0 w).captures + m }, ?_, rfl⟩
      rw [hm4]
      simp
    · intro k hk1 hkn
      have hlt : (n : Int) * viewPortHeight < scrollHeight := by
        rcases hn3 with h | h
        · omega
        · exact h
      exact lt_of_le_of_lt (hmono k hkn) hlt
    · intro hlt
      refine ⟨?_, hmono⟩
      rcases hn3 with h | h
      · subst h
        simpa using hlt
      · exact h
  · intro hv hs fuel
    subst hv
    exact captureLoop_diverges fails hcap scrollHeight fuel 0 [] _ hs

theorem captureLoop_frame_count_witness :
    (∃ n : Nat, (n : Int) = max 1 (⌈((2500 : Int) : ℚ) / ((1000 : Int) : ℚ)⌉ - 1)
        ∧ (∀ fuel : Nat, (2500 : Int).toNat + 1 ≤ fuel →
            ∃ w2 : Webview,
              captureLoop (fun _ => false) 2500 1000 fuel 0 []
                  (scrollTo 0 0 ⟨7, 300, 2500, 1000, [], 0, [], 0, 0⟩) =
                some (Except.ok ((List.range n).map
                  (fun k : Nat => JsValue.nativeImage ⟨0, (k : Int) * 1000⟩)), w2)
              ∧ w2.captures = (⟨7, 300, 2500, 1000, [], 0, [], 0, 0⟩ : Webview).captures + n)
        ∧ (∀ k : Nat, 1 ≤ k → k < n → (k : Int) * 1000 + 1000 < 2500)
        ∧ ((1000 : Int) < 2500 →
            (n : Int) * 1000 < 2500
              ∧ ∀ k : Nat, k < n → (k : Int) * 1000 + 1000 ≤ (n : Int) * 1000))
      ∧ (∀ fuel : Nat,
          captureLoop (fun _ => false) 2500 0 fuel 0 []
            (scrollTo 0 0 ⟨7, 300, 2500, 0, [], 0, [], 0, 0⟩) = none) :=
  ⟨(captureLoop_frame_count (fun _ => false) (fun _ => rfl) ⟨7, 300, 2500, 1000, [], 0, [], 0, 0⟩
      2500 1000).1 (by decide),
    (captureLoop_frame_count (fun _ => false) (fun _ => rfl) ⟨7, 300, 2500, 0, [], 0, [], 0, 0⟩
      2500 0).2 rfl (by decide)⟩

/-! ## The file name -/

theorem split_no_sep (sep : Char) (a : List Char) (h : sep ∉ a) : split sep a = [a] := by
  induction a with
  | nil => rfl
  | cons c cs ih =>
    have hc : c ≠ sep := fun e => h (by simp [e])
    have hcs : sep ∉ cs := fun e => h (by simp [e])
    simp [split, hc, ih hcs]

theorem split_append_sep (sep : Char) (a b : List Char) (h : sep ∉ a) :
    split sep (a ++ sep :: b) = a :: split sep b := by
  induction a with
  | nil => simp [split]
  | cons c cs ih =>
    have hc : c ≠ sep := fun e => h (by simp [e])
    have hcs : sep ∉ cs := fun e => h (by simp [e])
    simp [split, hc, ih hcs]

theorem replaceColons_append (a b : List Char) :
    replaceColons (a ++ ':' :: b) = replaceColons a ++ '.' :: replaceColons b := by
  simp [replaceColons]

theorem replaceColons_no_colon (a : List Char) (h : ':' ∉ a) : replaceColons a = a := by
  induction a with
  | nil => rfl
  | cons c cs ih =>
    have hc : c ≠ ':' := fun e => h (by simp [e])
    have hcs : ':' ∉ cs := fun e => h (by simp [e])
    have := ih hcs
    simp only [replaceColons] at this ⊢
    simp [hc, this]

theorem toUpperCase_append (upperMapping : Char → List Char) (x y : List Char) :
    toUpperCase upperMapping (x ++ y) = toUpperCase upperMapping x ++ toUpperCase upperMapping y := by
  simp [toUpperCase]

/-- On a string of ASCII characters `toUpperCase` is the character-wise ASCII upper-casing,
whatever the mapping of the other code points. -/
theorem toUpperCase_ascii (upperMapping : Char → List Char) (x : List Char)
    (hx : ∀ ch ∈ x, ch.toNat < 128) : toUpperCase upperMapping x = x.map Char.toUpper := by
  induction x with
  | nil => rfl
  | cons ch rest ih =>
    have h1 : ch.toNat < 128 := hx ch (by simp)
    have h2 : ∀ c ∈ rest, c.toNat < 128 := fun c hc => hx c (by simp [hc])
    have := ih h2
    simp only [toUpperCase] at this ⊢
    simp [h1, this]

/-- The name for a three-field date and a four-field time, with the time still under
`toUpperCase`. -/
theorem screenshotFileName_fields (upperMapping : Char → List Char) (device : Device)
    (a b c h m s p : List Char)
    (ha : '/' ∉ a) (hb : '/' ∉ b) (hc : '/' ∉ c)
    (hh : ':' ∉ h) (hm : ':' ∉ m) (hs : ':' ∉ s) (hp : ':' ∉ p) :
    _getScreenshotFileName upperMapping device
        ⟨a ++ '/' :: (b ++ '/' :: c), h ++ ':' :: (m ++ ':' :: (s ++ ' ' :: p))⟩
      = device.name ++ " - ".toList ++ (c ++ '-' :: (b ++ '-' :: a)) ++ " at ".toList
        ++ toUpperCase upperMapping (h ++ '.' :: (m ++ '.' :: (s ++ ' ' :: p)))
        ++ ".png".toList := by
  have hsp : ':' ∉ s ++ ' ' :: p := by
    simp only [List.mem_append, List.mem_cons, not_or]
    exact ⟨hs, by decide, hp⟩
  have hdate : split '/' (a ++ '/' :: (b ++ '/' :: c)) = [a, b, c] := by
    rw [split_append_sep _ _ _ ha, split_append_sep _ _ _ hb, split_no_sep _ _ hc]
  have htime : replaceColons (h ++ ':' :: (m ++ ':' :: (s ++ ' ' :: p)))
      = h ++ '.' :: (m ++ '.' :: (s ++ ' ' :: p)) := by
    rw [replaceColons_append, replaceColons_append, replaceColons_no_colon _ hh,
      replaceColons_no_colon _ hm, replaceColons_no_colon _ hsp]
  simp only [_getScreenshotFileName, hdate, htime]
  simp [List.intercalate]

/-- The upper-cased time when its four fields are ASCII. -/
theorem toUpperCase_time_ascii (upperMapping : Char → List Char) (h m s p : List Char)
    (hascii : ∀ ch ∈ h ++ m ++ s ++ p, ch.toNat < 128) :
    toUpperCase upperMapping (h ++ '.' :: (m ++ '.' :: (s ++ ' ' :: p)))
      = h.map Char.toUpper ++ '.' :: (m.map Char.toUpper ++ '.' :: (s.map Char.toUpper
        ++ ' ' :: p.map Char.toUpper)) := by
  have hall : ∀ ch ∈ h ++ '.' :: (m ++ '.' :: (s ++ ' ' :: p)), ch.toNat < 128 := by
    intro ch hch
    simp only [List.mem_append, List.mem_cons] at hch
    rcases hch with hch | rfl | hch | rfl | hch | rfl | hch
    · exact hascii ch (by simp [hch])
    · decide
    · exact hascii ch (by simp [hch])
    · decide
    · exact hascii ch (by simp [hch])
    · decide
    · exact hascii ch (by simp [hch])
  rw [toUpperCase_ascii upperMapping _ hall]
  have e1 : Char.toUpper '.' = '.' := by decide
  have e2 : Char.toUpper ' ' = ' ' := by decide
  simp [e1, e2]

/-- C7, as the specification states it, fails: for device "iPhone 12" at 2024-01-05 14:30:00,
rendered by the locale as "05/01/2024" and "2:30:00 pm", the name is
"iPhone 12 - 2024-01-05 at 2.30.00 PM.png"; and with the time rendered "02:30:00 PM" it is
"iPhone 12 - 2024-01-05 at 02.30.00 PM.png". Neither is the name with the day first. -/
theorem screenshotFileName_is_year_first :
    _getScreenshotFileName (fun c => [c]) ⟨1, "iPhone 12".toList⟩
          ⟨"05/01/2024".toList, "2:30:00 pm".toList⟩
        = "iPhone 12 - 2024-01-05 at 2.30.00 PM.png".toList
      ∧ _getScreenshotFileName (fun c => [c]) ⟨1, "iPhone 12".toList⟩
          ⟨"05/01/2024".toList, "02:30:00 PM".toList⟩
        = "iPhone 12 - 2024-01-05 at 02.30.00 PM.png".toList
      ∧ _getScreenshotFileName (fun c => [c]) ⟨1, "iPhone 12".toList⟩
          ⟨"05/01/2024".toList, "2:30:00 pm".toList⟩
        ≠ "iPhone 12 - 05-01-2024 at 02.30.00 PM.png".toList
      ∧ _getScreenshotFileName (fun c => [c]) ⟨1, "iPhone 12".toList⟩
          ⟨"05/01/2024".toList, "02:30:00 PM".toList⟩
        ≠ "iPhone 12 - 05-01-2024 at 02.30.00 PM.png".toList := by
  decide

/-- C7, amended. For every device name, every locale date `a/b/c` (three fields without a
slash) and every locale time `h:m:s p` (fields without a colon), the name is
`<deviceName> - c-b-a at <TIME>.png`: the date fields in reverse order joined by a dash, and
for `<TIME>` the upper-casing of `h.m.s p`, the time with each colon replaced by a period.
When the time fields are ASCII, `<TIME>` is `H.M.S P` with every letter `a` to `z` of the
fields turned into `A` to `Z` and every other character kept. In particular, for every
platform, device "iPhone 12" with the locale strings "05/01/2024" and "2:30:00 pm" gets the
name "iPhone 12 - 2024-01-05 at 2.30.00 PM.png". -/
theorem screenshotFileName_format (upperMapping : Char → List Char) (device : Device)
    (a b c h m s p : List Char)
    (ha : '/' ∉ a) (hb : '/' ∉ b) (hc : '/' ∉ c)
    (hh : ':' ∉ h) (hm : ':' ∉ m) (hs : ':' ∉ s) (hp : ':' ∉ p) :
    _getScreenshotFileName upperMapping device
        ⟨a ++ '/' :: (b ++ '/' :: c), h ++ ':' :: (m ++ ':' :: (s ++ ' ' :: p))⟩
      = device.name ++ " - ".toList ++ (c ++ '-' :: (b ++ '-' :: a)) ++ " at ".toList
        ++ toUpperCase upperMapping (h ++ '.' :: (m ++ '.' :: (s ++ ' ' :: p)))
        ++ ".png".toList
    ∧ ((∀ ch ∈ h ++ m ++ s ++ p, ch.toNat < 128) →
        _getScreenshotFileName upperMapping device
            ⟨a ++ '/' :: (b ++ '/' :: c), h ++ ':' :: (m ++ ':' :: (s ++ ' ' :: p))⟩
          = device.name ++ " - ".toList ++ (c ++ '-' :: (b ++ '-' :: a)) ++ " at ".toList
            ++ (h.map Char.toUpper ++ '.' :: (m.map Char.toUpper ++ '.' ::
              (s.map Char.toUpper ++ ' ' :: p.map Char.toUpper)))
            ++ ".png".toList)
    ∧ _getScreenshotFileName upperMapping ⟨1, "iPhone 12".toList⟩
          ⟨"05/01/2024".toList, "2:30:00 pm".toList⟩
        = "iPhone 12 - 2024-01-05 at 2.30.00 PM.png".toList := by
  refine ⟨screenshotFileName_fields upperMapping device a b c h m s p ha hb hc hh hm hs hp,
    fun hascii => ?_, ?_⟩
  · rw [screenshotFileName_fields upperMapping device a b c h m s p ha hb hc hh hm hs hp,
      toUpperCase_time_ascii upperMapping h m s p hascii]
  · have h1 := screenshotFileName_fields upperMapping ⟨1, "iPhone 12".toList⟩
      "05".toList "01".toList "2024".toList "2".toList "30".toList "00".toList "pm".toList
      (by decide) (by decide) (by decide) (by decide) (by decide) (by decide) (by decide)
    have h2 := toUpperCase_time_ascii upperMapping "2".toList "30".toList "00".toList
      "pm".toList (by decide)
    rw [h2] at h1
    have e1 : ("05/01/2024".toList, "2:30:00 pm".toList)
        = ("05".toList ++ '/' :: ("01".toList ++ '/' :: "2024".toList),
          "2".toList ++ ':' :: ("30".toList ++ ':' :: ("00".toList ++ ' ' :: "pm".toList))) := by
      decide
    have e2 : (⟨1, "iPhone 12".toList⟩ : Device).name ++ " - ".toList
        ++ ("2024".toList ++ '-' :: ("01".toList ++ '-' :: "05".toList)) ++ " at ".toList
        ++ ("2".toList.map Char.toUpper ++ '.' :: ("30".toList.map Char.toUpper ++ '.' ::
          ("00".toList.map Char.toUpper ++ ' ' :: "pm".toList.map Char.toUpper)))
        ++ ".png".toList = "iPhone 12 - 2024-01-05 at 2.30.00 PM.png".toList := by
      decide
    rw [← e2, ← h1]
    rw [(Prod.mk.injEq _ _ _ _).mp e1 |>.1, (Prod.mk.injEq _ _ _ _).mp e1 |>.2]

theorem screenshotFileName_format_witness :
    _getScreenshotFileName (fun c => [c]) ⟨1, "iPhone 12".toList⟩
        ⟨"05".toList ++ '/' :: ("01".toList ++ '/' :: "2024".toList),
          "2".toList ++ ':' :: ("30".toList ++ ':' :: ("00".toList ++ ' ' :: "pm".toList))⟩
      = Device.name ⟨1, "iPhone 12".toList⟩ ++ " - ".toList
        ++ ("2024".toList ++ '-' :: ("01".toList ++ '-' :: "05".toList)) ++ " at ".toList
        ++ ("2".toList.map Char.toUpper ++ '.' :: ("30".toList.map Char.toUpper ++ '.' ::
          ("00".toList.map Char.toUpper ++ ' ' :: "pm".toList.map Char.toUpper)))
        ++ ".png".toList :=
  (screenshotFileName_format (fun c => [c]) ⟨1, "iPhone 12".toList⟩ "05".toList "01".toList
    "2024".toList "2".toList "30".toList "00".toList "pm".toList (by decide) (by decide)
    (by decide) (by decide) (by decide) (by decide) (by decide)).2.1 (by decide)

end WebView
